import Mathlib

/-!
Verification development for the Metric Evaluation & Aggregation Engine of the
scorer repository.  Python sources are shallowly embedded: Python dicts become
association lists or functions, floats become `ℚ` (or `ℝ` where the source uses
`math.log`), and fallible code returns `Except`/`Option`.  `Except Unit` errors
model exceptions that escape the `except Exception` handlers (i.e. `SystemExit`
raised by `exit(1)`), while ordinary exceptions that the dispatcher catches are
modelled by explicit constructors of `Outcome`.
-/

namespace Scorer

/-! ### Association list helpers (Python dict operations) -/

/-- Python `d.get(k, default)` on an insertion-ordered association list. -/
def alGet {α : Type} (l : List (String × α)) (k : String) (d : α) : α :=
  match l.find? (fun kv => kv.1 == k) with
  | some kv => kv.2
  | none => d

/-- Python `defaultdict(int); d[k] += v`: add at an existing key in place,
otherwise append at the end (dict insertion order). -/
def alAdd (l : List (String × ℕ)) (k : String) (v : ℕ) : List (String × ℕ) :=
  match l with
  | [] => [(k, v)]
  | kv :: rest =>
    if kv.1 = k then (kv.1, kv.2 + v) :: rest else kv :: alAdd rest k v

/-- Python `d[k] = v`: overwrite at an existing key keeping its position,
otherwise append at the end. -/
def alSet (l : List (String × String)) (k v : String) : List (String × String) :=
  match l with
  | [] => [(k, v)]
  | kv :: rest =>
    if kv.1 = k then (kv.1, v) :: rest else kv :: alSet rest k v

/-! ### SizeFit: embedding of src/src/scorer/metrics/size.py -/

/-- `HARDWARE_LIMITS` (size.py): tier byte capacities. -/
def HARDWARE_LIMITS : List (String × ℕ) :=
  [("raspberry_pi", 4000000000), ("jetson_nano", 4000000000),
   ("desktop_pc", 32000000000), ("aws_server", 512000000000)]

/-- `USABLE_FRACTION` (size.py): fraction of RAM assumed to hold weights. -/
def USABLE_FRACTION : List (String × ℚ) :=
  [("raspberry_pi", 26/100), ("jetson_nano", 35/100),
   ("desktop_pc", 85/100), ("aws_server", 98/100)]

/-- The four tier keys, in `HARDWARE_LIMITS` order. -/
def hardwareKeys : List String := HARDWARE_LIMITS.map Prod.fst

/-- `_WEIGHT_EXTS` (size.py). -/
def WEIGHT_EXTS : List String :=
  [".safetensors", ".bin", ".pt", ".pth", ".onnx", ".tflite", ".pb"]

/-- Python `str.lower()` on an (ASCII) character. -/
def asciiLower (c : Char) : Char :=
  if 'A' ≤ c ∧ c ≤ 'Z' then Char.ofNat (c.toNat + 32) else c

/-- Python `s.lower()` (the sources only lower-case ASCII identifiers). -/
def pyToLower (cs : List Char) : List Char := cs.map asciiLower

/-- `s.lower()` as a `String` operation. -/
def pyLowerS (s : String) : String := String.mk (pyToLower s.toList)

/-- Python `s.endswith(suf)`. -/
def endsWithL (suf cs : List Char) : Bool := suf.isSuffixOf cs

/-- Python substring containment `needle in hay` over character lists. -/
def hasSub (needle : List Char) : List Char → Bool
  | [] => needle.isEmpty
  | c :: rest => needle.isPrefixOf (c :: rest) || hasSub needle rest

/-- Python `s.split("/")[-1]`: everything after the last slash. -/
def lastComponent (cs : List Char) : List Char :=
  cs.foldl (fun acc c => if c = '/' then [] else acc ++ [c]) []

/-- Python `s.strip()`. -/
def pyStrip (cs : List Char) : List Char :=
  ((cs.dropWhile Char.isWhitespace).reverse.dropWhile Char.isWhitespace).reverse

/-- `_looks_like_weight_file` (size.py): weight-like extension, excluding
optimizer/training-state files by filename keyword. -/
def looksLikeWeightFile (name : String) : Bool :=
  let lower := pyToLower name.toList
  if ["optimizer", "optim", "training", "trainer", "adam"].any
      (fun tok => hasSub tok.toList lower) then
    false
  else
    WEIGHT_EXTS.any (fun ext => endsWithL ext.toList lower)

/-- Tail of the shard regex `-\d{5}-of-\d{5}\.(?P<ext>[^.]+)$` (case-insensitive
on the letters, per `re.IGNORECASE`); returns the extension characters. -/
def shardTail : List Char → Option (List Char)
  | '-' :: d1 :: d2 :: d3 :: d4 :: d5 :: '-' :: oc :: fc :: '-' ::
      e1 :: e2 :: e3 :: e4 :: e5 :: '.' :: ext =>
    if [d1, d2, d3, d4, d5].all Char.isDigit ∧ [e1, e2, e3, e4, e5].all Char.isDigit
        ∧ (oc = 'o' ∨ oc = 'O') ∧ (fc = 'f' ∨ fc = 'F')
        ∧ ext ≠ [] ∧ ext.all (fun ch => ch ≠ '.') then
      some ext
    else
      none
  | _ => none

/-- Lazy `(?P<pre>.+?)` of `_SHARD_RE`: the shortest non-empty leading chunk
whose remainder matches `shardTail`.  First argument accumulates the chunk. -/
def shardSplit : List Char → List Char → Option (List Char × List Char)
  | _, [] => none
  | acc, c :: rest =>
    match shardTail rest with
    | some ext => some (acc ++ [c], ext)
    | none => shardSplit (acc ++ [c]) rest

/-- `_family_key` (size.py): shard sets collapse to `pre.ext` lower-cased;
non-sharded files use their lower-cased basename. -/
def familyKey (filename : String) : String :=
  match shardSplit [] filename.toList with
  | some pe => String.mk (pyToLower pe.1 ++ '.' :: pyToLower pe.2)
  | none => String.mk (lastComponent (pyToLower filename.toList))

/-- `_framework_weight` (size.py). -/
def frameworkWeight (filename : String) : String :=
  let fn := pyToLower filename.toList
  if endsWithL ".safetensors".toList fn then "safetensors"
  else if endsWithL ".bin".toList fn ∨ endsWithL ".pt".toList fn
      ∨ endsWithL ".pth".toList fn then "pytorch"
  else if endsWithL ".onnx".toList fn then "onnx"
  else if endsWithL ".tflite".toList fn then "tflite"
  else if endsWithL ".pb".toList fn then "tensorflow"
  else "other"

/-- `_FRAMEWORK_PREF` (size.py): tie-break preference order. -/
def FRAMEWORK_PREF : List (String × ℕ) :=
  [("safetensors", 0), ("pytorch", 1), ("onnx", 2), ("tflite", 3),
   ("tensorflow", 4), ("other", 5)]

/-- Step 1 of `_pick_min_viable_family`: keep only weight-like files,
with Python `int(sz or 0)` turning a null size into 0. -/
def weightFiles (files : List (String × Option ℕ)) : List (String × ℕ) :=
  (files.filter (fun fs => looksLikeWeightFile fs.1)).map
    (fun fs => (fs.1, fs.2.getD 0))

/-- Step 2 of `_pick_min_viable_family`: group into families (totals dict and
last-written framework dict, both in insertion order). -/
def buildFamilies (weights : List (String × ℕ)) :
    List (String × ℕ) × List (String × String) :=
  weights.foldl
    (fun st wf =>
      let fkey := familyKey wf.1
      (alAdd st.1 fkey wf.2, alSet st.2 fkey (frameworkWeight wf.1)))
    ([], [])

/-- Step 3 of `_pick_min_viable_family`: scan the families dict keeping the
strictly smaller total, breaking exact ties by framework preference. -/
def pickLoop (famfw : List (String × String)) :
    Option (String × ℕ) → List (String × ℕ) → Option (String × ℕ)
  | best, [] => best
  | best, kt :: rest =>
    match best with
    | none => pickLoop famfw (some kt) rest
    | some b =>
      if kt.2 < b.2 then pickLoop famfw (some kt) rest
      else if kt.2 = b.2 then
        let fwBest := alGet FRAMEWORK_PREF (alGet famfw b.1 "other") 99
        let fwNew := alGet FRAMEWORK_PREF (alGet famfw kt.1 "other") 99
        if fwNew < fwBest then pickLoop famfw (some kt) rest
        else pickLoop famfw (some b) rest
      else pickLoop famfw (some b) rest

/-- The `(best_key, best_total)` pair tracked by `_pick_min_viable_family`. -/
def pickBestFamily (files : List (String × Option ℕ)) : Option (String × ℕ) :=
  let fams := buildFamilies (weightFiles files)
  pickLoop fams.2 none fams.1

/-- `_pick_min_viable_family` (size.py): total bytes of the smallest viable
weight family, falling back to the sum of all file sizes. -/
def pickMinViableFamily (files : List (String × Option ℕ)) : ℕ :=
  if weightFiles files = [] then (files.map (fun fs => fs.2.getD 0)).sum
  else
    match pickBestFamily files with
    | some b => b.2
    | none => 0

/-- `_K_UNDER` (size.py). -/
def K_UNDER : ℚ := 19/10

/-- `_score_utilization` (size.py). -/
def scoreUtilization (u : ℚ) : ℚ :=
  if u ≤ 0 then 1
  else if u ≤ 1 then max 0 (1 - K_UNDER * u)
  else max 0 (1 - K_UNDER - 3 * (u - 1))

/-- Python `round(x)` to an integer: round half to even. -/
def halfEvenRound (x : ℚ) : ℤ :=
  if x - ⌊x⌋ < 1/2 then ⌊x⌋
  else if 1/2 < x - ⌊x⌋ then ⌊x⌋ + 1
  else if Even ⌊x⌋ then ⌊x⌋ else ⌊x⌋ + 1

/-- Python `round(x, 2)`. -/
def pyRound2 (x : ℚ) : ℚ := (halfEvenRound (100 * x) : ℚ) / 100

/-- `max(1, int(limit * USABLE_FRACTION[hw_key]))` in `_score_on_hardware`. -/
def effectiveBytes (hw : String) : ℤ :=
  max 1 ⌊((alGet HARDWARE_LIMITS hw 0 : ℕ) : ℚ) * alGet USABLE_FRACTION hw 0⌋

/-- `_score_on_hardware` (size.py). -/
def scoreOnHardware (totalBytes : ℕ) (hw : String) : ℚ :=
  let u : ℚ := (totalBytes : ℚ) / (effectiveBytes hw : ℚ)
  max 0 (min 1 (pyRound2 (scoreUtilization u)))

/-! ### Dispatcher and Aggregator: embedding of `main` in
src/src/scorer/cli_updated.py (lines 179-355).

A Python value held in one of the per-line metric variables is either a float,
`None`, or the SizeFit score dict. -/

inductive PyVal : Type
  | num (q : ℚ)
  | noneV
  | dict (d : List (String × ℚ))
deriving DecidableEq

/-- What a provider call returns when it returns: either the documented
`(value, latency)` pair, or (dataset-quality bug) a bare float. -/
inductive PyRet : Type
  | tup (v : PyVal) (lat : ℕ)
  | bare (q : ℚ)
deriving DecidableEq

/-- One metric invocation as observed at `fut.result()`: a returned value, an
ordinary `Exception` (with the wall-clock ms the call took before failing), or
`SystemExit` raised by `exit(1)` inside the metric. -/
inductive Outcome : Type
  | ret (r : PyRet)
  | exc (elapsed : ℕ)
  | sysExit (elapsed : ℕ)
deriving DecidableEq

/-- The eight metric slots of the per-line state. -/
inductive Metric : Type
  | sizeM | licenseM | perfM | busM | rampM | codeQM | dsQM | dacM
deriving DecidableEq

/-- Resource types produced by the URL classifier. -/
inductive RType : Type
  | model | dataset | codeR
deriving DecidableEq

/-- `url_type.upper()` used for the `category` field. -/
def RType.upperName : RType → String
  | .model => "MODEL"
  | .dataset => "DATASET"
  | .codeR => "CODE"

/-- The applicable-metric subsets built in cli_updated.py lines 229-239, in
submission order. -/
def tasksFor : RType → List Metric
  | .codeR => [.codeQM]
  | .dataset => [.dsQM, .dacM]
  | .model => [.sizeM, .licenseM, .perfM, .busM, .rampM]

/-- Per-line mutable state: the fields initialized in cli_updated.py lines
182-214.  `sizeDict` starts as the four-tier zero dict. -/
structure LineState where
  name : String := ""
  category : String := ""
  rampUp : PyVal := .num 0
  busFactor : PyVal := .num 0
  perfClaims : PyVal := .num 0
  licenseV : PyVal := .num 0
  dacScore : PyVal := .num 0
  dsQuality : PyVal := .num 0
  codeQuality : PyVal := .num 0
  sizeDict : PyVal := .dict (hardwareKeys.map (fun k => (k, 0)))
  rampUpLat : ℕ := 0
  busFactorLat : ℕ := 0
  perfClaimsLat : ℕ := 0
  licenseLat : ℕ := 0
  dacLat : ℕ := 0
  dsQualityLat : ℕ := 0
  codeQualityLat : ℕ := 0
  sizeLat : ℕ := 0

/-- `val, lat = fut.result()` wrapped in `except Exception` (lines 245-249):
an `Exception` is replaced by `(0.0, 0)`; unpacking a bare float raises
`TypeError`, also caught, also `(0.0, 0)`; `SystemExit` escapes the handler. -/
def unpack : Outcome → Except Unit (PyVal × ℕ)
  | .ret (.tup v l) => .ok (v, l)
  | .ret (.bare _) => .ok (.num 0, 0)
  | .exc _ => .ok (.num 0, 0)
  | .sysExit _ => .error ()

/-- The metric-name dispatch of lines 250-265. -/
def setMetric (st : LineState) (m : Metric) (v : PyVal) (l : ℕ) : LineState :=
  match m with
  | .codeQM => { st with codeQuality := v, codeQualityLat := l }
  | .dsQM => { st with dsQuality := v, dsQualityLat := l }
  | .dacM => { st with dacScore := v, dacLat := l }
  | .sizeM => { st with sizeDict := v, sizeLat := l }
  | .licenseM => { st with licenseV := v, licenseLat := l }
  | .perfM => { st with perfClaims := v, perfClaimsLat := l }
  | .busM => { st with busFactor := v, busFactorLat := l }
  | .rampM => { st with rampUp := v, rampUpLat := l }

/-- Collect all submitted metrics of one URL.  An escaping `SystemExit` aborts
the whole run (it is not caught by any `except Exception`). -/
def runMetrics (outs : Metric → Outcome) : List Metric → LineState → Except Unit LineState
  | [], st => .ok st
  | m :: ms, st =>
    match unpack (outs m) with
    | .ok vl => runMetrics outs ms (setMetric st m vl.1 vl.2)
    | .error _ => .error ()

/-- One URL of a line (lines 217-265): set `name`/`category`, then run the
type-applicable metrics concurrently.  The resolved name is passed in, since
`get_repo_id` only splices the URL string. -/
def processUrl (st : LineState) (nm : String) (rt : RType) (outs : Metric → Outcome) :
    Except Unit LineState :=
  runMetrics outs (tasksFor rt) { st with name := nm, category := rt.upperName }

/-- The emitted NDJSON record (lines 314-335). -/
structure Record where
  name : String
  category : String
  netScore : ℚ
  netScoreLat : ℕ
  rampUp : ℚ
  rampUpLat : ℕ
  busFactor : ℚ
  busFactorLat : ℕ
  perfClaims : ℚ
  perfClaimsLat : ℕ
  licenseScore : ℚ
  licenseLat : ℕ
  sizeScore : List (String × ℚ)
  sizeLat : ℕ
  dacScore : ℚ
  dacLat : ℕ
  dsQuality : ℚ
  dsQualityLat : ℕ
  codeQuality : ℚ
  codeQualityLat : ℕ
deriving DecidableEq

/-- The all-default record printed for an empty line (lines 269-290) and by the
outer `except Exception` handler (lines 341-353): every number 0, and
`size_score` the four-tier zero dict. -/
def defaultRecord : Record :=
  { name := "", category := "", netScore := 0, netScoreLat := 0,
    rampUp := 0, rampUpLat := 0, busFactor := 0, busFactorLat := 0,
    perfClaims := 0, perfClaimsLat := 0, licenseScore := 0, licenseLat := 0,
    sizeScore := hardwareKeys.map (fun k => (k, 0)), sizeLat := 0,
    dacScore := 0, dacLat := 0, dsQuality := 0, dsQualityLat := 0,
    codeQuality := 0, codeQualityLat := 0 }

/-- Python truthiness of the values a metric variable can hold. -/
def PyVal.truthy : PyVal → Bool
  | .num q => q ≠ 0
  | .noneV => false
  | .dict d => ¬ d.isEmpty

/-- Using a metric variable as a float: `None` (or a dict) in arithmetic
raises `TypeError`, caught only by the outer handler. -/
def PyVal.asNum : PyVal → Except Unit ℚ
  | .num q => .ok q
  | _ => .error ()

/-- Lines 297-299: `size_score = sum(size_dict.values())/len(size_dict) if
size_dict else 0.0`; calling `.values()` on a truthy non-dict raises
`AttributeError`. -/
def sizeScoreOf : PyVal → Except Unit ℚ
  | .dict d => if d.isEmpty then .ok 0 else .ok ((d.map Prod.snd).sum / d.length)
  | .noneV => .ok 0
  | .num q => if q = 0 then .ok 0 else .error ()

/-- Lines 296-335: compute the net score and build the output record; any
exception there falls to the outer handler, which emits `defaultRecord`. -/
def buildRecord (st : LineState) (netLat : ℕ) : Record :=
  let comp : Except Unit Record := do
    let sizeScore ← sizeScoreOf st.sizeDict
    let lic ← st.licenseV.asNum
    let ramp ← st.rampUp.asNum
    let bus ← st.busFactor.asNum
    let dq ← st.dsQuality.asNum
    let cq ← st.codeQuality.asNum
    let perf ← st.perfClaims.asNum
    let dac ← st.dacScore.asNum
    let net := 15/100 * sizeScore + 15/100 * lic + 10/100 * ramp + 10/100 * bus
      + 15/100 * dq + 10/100 * cq + 15/100 * perf + 10/100 * dac
    let sizeOut := match st.sizeDict with
      | .dict d => if d.isEmpty then [] else d.map (fun kv => (kv.1, pyRound2 kv.2))
      | _ => []
    .ok { name := st.name, category := st.category,
          netScore := pyRound2 net, netScoreLat := netLat,
          rampUp := pyRound2 ramp, rampUpLat := st.rampUpLat,
          busFactor := pyRound2 bus, busFactorLat := st.busFactorLat,
          perfClaims := pyRound2 perf, perfClaimsLat := st.perfClaimsLat,
          licenseScore := pyRound2 lic, licenseLat := st.licenseLat,
          sizeScore := sizeOut, sizeLat := st.sizeLat,
          dacScore := pyRound2 dac, dacLat := st.dacLat,
          dsQuality := pyRound2 dq, dsQualityLat := st.dsQualityLat,
          codeQuality := pyRound2 cq, codeQualityLat := st.codeQualityLat }
  match comp with
  | .ok r => r
  | .error _ => defaultRecord

/-- One input line (lines 179-355): initialize the defaults, process each
classified URL, then emit exactly one record — unless a `SystemExit` escapes,
which aborts the whole process with no record for this or later lines. -/
def processLine (line : List (String × RType × (Metric → Outcome))) (netLat : ℕ) :
    Except Unit Record :=
  let step : Except Unit LineState → String × RType × (Metric → Outcome) → Except Unit LineState :=
    fun acc u => acc.bind (fun st => processUrl st u.1 u.2.1 u.2.2)
  let stRes := line.foldl step (Except.ok {})
  match stRes with
  | .error _ => .error ()
  | .ok st => if line.isEmpty then .ok defaultRecord else .ok (buildRecord st netLat)

/-! ### `get_repo_id` (base.py) and `get_size_score` (size.py 182-206), model path. -/

/-- Python `parts.index(x)` wrapped in the `except ValueError` of base.py:
the index of the first occurrence, or `none` when absent. -/
def pyIndexOf (x : String) : List String → Option ℕ
  | [] => none
  | y :: rest => if y = x then some 0 else (pyIndexOf x rest).map (fun i => i + 1)

/-- Python `url.split("/")`: split on every slash, keeping empty components. -/
def pySplitSlash : List Char → List (List Char)
  | [] => [[]]
  | c :: rest =>
    match pySplitSlash rest with
    | [] => [[]]
    | h :: t => if c = '/' then [] :: h :: t else (c :: h) :: t

/-- `get_repo_id` (base.py) for `url_type == "model"`: splice the URL around
`huggingface.co`.  The only exceptions this branch can raise — `ValueError`
from `parts.index` and `IndexError` from the subscripts — are caught by the
function's own `except (ValueError, IndexError)` which returns `None`, so the
function is total: it never raises for a model URL. -/
def getRepoIdModel (url : String) : Option String :=
  let parts := (pySplitSlash url.toList).map String.mk
  match pyIndexOf "huggingface.co" parts with
  | none => none
  | some i =>
    match parts.get? (i + 1), parts.get? (i + 2) with
    | some p1, some p2 => some (p1 ++ "/" ++ p2)
    | _, _ => none

/-- `get_size_score` (size.py lines 182-206) for a model URL.  Because
`get_repo_id` returns `None` rather than raising (see `getRepoIdModel`), the
`except` at size.py lines 187-189 — the `(None, latency)` return — cannot
fire for a dispatcher-invoked model call.  The external Hugging Face listing
is `fetchFiles`, applied to the resolved id: `.error` when
`model_info(files_metadata=True)` raises (as it does for a `None` repo id),
which line 200 catches, scoring `total_bytes = 0`; so every call returns the
full four-tier score map. -/
def getSizeScoreModel (url : String)
    (fetchFiles : Option String → Except Unit (List (String × Option ℕ)))
    (lat : ℕ) : PyRet :=
  let repoId := getRepoIdModel url
  let totalBytes := match fetchFiles repoId with
    | .ok fs => pickMinViableFamily fs
    | .error _ => 0
  .tup (.dict (hardwareKeys.map (fun hw => (hw, scoreOnHardware totalBytes hw)))) lat

/-! ### CodeQuality: embedding of src/src/scorer/metrics/code_quality.py.

The subprocess scanners and the filesystem walk are external probes; their
observations are collected in `CodeRepoFacts`.  The load-bearing part for the
fault-isolation claims is the clone-failure branch of
`_check_code_repo_quality` (lines 197-201), which calls `exit(1)` —
raising `SystemExit`, not an `Exception`. -/

/-- The totals row fields of `run_lizard` that `score_from_lizard_totals`
reads. -/
structure LizardTotals where
  avgCCN : ℚ
  avgNLOC : ℚ
  warningCount : ℕ
deriving DecidableEq

/-- `score_from_lizard_totals` (code_quality.py lines 109-158). -/
def scoreFromLizardTotals (t : LizardTotals) : ℚ :=
  let ccnScore : ℚ :=
    if t.avgCCN ≤ 5 then 1 else if t.avgCCN ≤ 10 then 8/10
    else if t.avgCCN ≤ 20 then 5/10 else 2/10
  let nlocScore : ℚ :=
    if t.avgNLOC ≤ 30 then 1 else if t.avgNLOC ≤ 40 then 8/10
    else if t.avgNLOC ≤ 100 then 5/10 else 2/10
  let warningScore : ℚ :=
    if t.warningCount = 0 then 1 else if t.warningCount ≤ 2 then 7/10
    else if t.warningCount ≤ 5 then 4/10 else 1/10
  (5/10 * ccnScore + 3/10 * nlocScore + 2/10 * warningScore) / (5/10 + 3/10 + 2/10)

/-- External observations of the cloned repository made by
`_check_code_repo_quality` lines 202-255. -/
structure CodeRepoFacts where
  hasTestFile : Bool
  hasFramework : Bool
  radonScore : ℚ
  lizardTotals : Option LizardTotals
  hasCI : Bool
  hasDockerfile : Bool
  hasRequirements : Bool
  hasReadme : Bool
  docstrRatio : ℚ

/-- `_check_code_repo_quality` (code_quality.py lines 189-270).  A clone
failure hits `exit(1)`: the function never returns and `SystemExit(1)`
propagates (modelled as `.error ()`). -/
def checkCodeRepoQuality (clone : Except Unit CodeRepoFacts) : Except Unit ℚ :=
  match clone with
  | .error _ => .error ()
  | .ok facts =>
    let reliability : ℚ :=
      if facts.hasFramework then 1 else if facts.hasTestFile then 7/10 else 0
    let lizardScore : ℚ := match facts.lizardTotals with
      | some t => scoreFromLizardTotals t
      | none => 0
    let complexity := max facts.radonScore lizardScore
    let testability : ℚ := if facts.hasCI then 1 else 0
    let portability : ℚ :=
      (if facts.hasDockerfile then 5/10 else 0) +
      (if facts.hasRequirements then 5/10 else 0)
    let readmeBonus : ℚ := if facts.hasReadme then 5/10 else 0
    let reusability := max facts.docstrRatio readmeBonus
    .ok (min 1 (complexity * (70/100) + reliability * (5/100) + testability * (5/100)
      + portability * (1/10) + reusability * (1/10)))

/-- `get_code_quality` (code_quality.py lines 273-285) as the dispatcher
observes it: a returned `(score, latency)` pair, or the escaping
`SystemExit` from the clone-failure branch. -/
def getCodeQuality (urlType : String) (clone : Except Unit CodeRepoFacts) (lat : ℕ) :
    Outcome :=
  if urlType = "code" then
    match checkCodeRepoQuality clone with
    | .ok s => .ret (.tup (.num s) lat)
    | .error _ => .sysExit lat
  else .ret (.tup (.num 0) lat)

/-! ### DatasetQuality: embedding of src/src/scorer/metrics/dataset_quality.py.

This provider computes with `math.log10`, so its scores live in `ℝ`. -/

/-- `math.log10`. -/
noncomputable def log10 (x : ℝ) : ℝ := Real.log x / Real.log 10

/-- `normalize` (dataset_quality.py lines 50-53). -/
noncomputable def normalizeCount (value target : ℕ) : ℝ :=
  if value ≤ 0 then 0
  else min 1 (log10 ((value : ℝ) + 1) / log10 ((target : ℝ) + 1))

/-- `max_downloads` (dataset_quality.py). -/
def maxDownloads : ℕ := 1000000

/-- `max_likes` (dataset_quality.py). -/
def maxLikes : ℕ := 2000

/-- Python `round(x)` on a real: round half to even. -/
noncomputable def halfEvenRoundR (x : ℝ) : ℤ :=
  if x - ⌊x⌋ < 1/2 then ⌊x⌋
  else if 1/2 < x - ⌊x⌋ then ⌊x⌋ + 1
  else if Even ⌊x⌋ then ⌊x⌋ else ⌊x⌋ + 1

/-- Python `round(x, 2)` on a real. -/
noncomputable def pyRound2R (x : ℝ) : ℝ := (halfEvenRoundR (100 * x) : ℝ) / 100

/-- What `get_dataset_quality_score` can return: the documented
`(Optional[float], int)` pair, a bare float, or an uncaught exception from the
`dataset_info` fetch. -/
inductive DQRet : Type
  | tup (v : Option ℝ) (lat : ℕ)
  | bare (x : ℝ)
  | exc

/-- Discriminator: did the call return a `(value, latency)` pair? -/
def DQRet.isPair : DQRet → Bool
  | .tup _ _ => true
  | _ => false

/-- `get_dataset_quality_score` (dataset_quality.py lines 56-91).  External
inputs: `repoId` for `get_repo_id` (caught failure returns `(None, lat)`),
`info` for the un-guarded `dataset_info` fetch yielding the downloads and
likes counts (`downloads or 0`, `likes or stars or 0` already resolved). -/
noncomputable def getDatasetQualityScore (urlType : String)
    (repoId : Except Unit String) (info : Except Unit (ℕ × ℕ)) (lat : ℕ) : DQRet :=
  if urlType ≠ "dataset" then .tup none lat
  else
    match repoId with
    | .error _ => .tup none lat
    | .ok _ =>
      match info with
      | .error _ => .exc
      | .ok dlLikes =>
        let downloadsScore := normalizeCount dlLikes.1 maxDownloads
        let likesScore := normalizeCount dlLikes.2 maxLikes
        if dlLikes.2 = 0 then .bare (pyRound2R downloadsScore)
        else .tup (some (pyRound2R (8/10 * downloadsScore + 2/10 * likesScore))) lat

/-! ### BusFactor: embedding of src/src/scorer/metrics/busfactor.py.

Commit history walking (`_collect_doa_inputs`) is embedded over an abstract
commit list; `_is_code_like` consults the filesystem, so it is passed in as a
predicate.  The creating author per file comes from a separate `git log` call
(`_first_author_email`), so `creators` is likewise an input. -/

/-- `(c.author.email or c.author.name or "unknown").strip().lower()`
(busfactor.py line 150). -/
def normAuthor (email nm : String) : String :=
  pyLowerS (String.mk (pyStrip
    (if email ≠ "" then email else if nm ≠ "" then nm else "unknown").toList))

/-- One commit as `_collect_doa_inputs` reads it: author identity and the
(duplicate-free) keys of `c.stats.files`. -/
structure Commit where
  email : String
  authorName : String
  files : List String

/-- The normalized author of a commit. -/
def Commit.author (c : Commit) : String := normAuthor c.email c.authorName

/-- The three per-file tallies `_collect_doa_inputs` builds while walking
commits (`dl`, `total_by_file`, `contributors`). -/
structure CState where
  dl : String → String → ℕ
  total : String → ℕ
  contrib : String → List String

/-- The empty `defaultdict` state. -/
def cInit : CState :=
  { dl := fun _ _ => 0, total := fun _ => 0, contrib := fun _ => [] }

/-- Body of the inner loop of `_collect_doa_inputs` (lines 155-160): skip
non-code-like files, else bump `dl[f][author]`, `total_by_file[f]` and add the
author to `contributors[f]`. -/
def addFile (isCL : String → Bool) (a : String) (st : CState) (f : String) : CState :=
  if isCL f then
    { dl := fun f2 a2 => if f2 = f ∧ a2 = a then st.dl f2 a2 + 1 else st.dl f2 a2,
      total := fun f2 => if f2 = f then st.total f2 + 1 else st.total f2,
      contrib := fun f2 =>
        if f2 = f ∧ ¬ a ∈ st.contrib f2 then a :: st.contrib f2 else st.contrib f2 }
  else st

/-- One commit of `_collect_doa_inputs`. -/
def addCommit (isCL : String → Bool) (st : CState) (c : Commit) : CState :=
  c.files.foldl (addFile isCL c.author) st

/-- The commit walk of `_collect_doa_inputs` (lines 148-160). -/
def collect (isCL : String → Bool) (commits : List Commit) : CState :=
  commits.foldl (addCommit isCL) cInit

/-- The four maps `_doa` reads (collection output plus the separately
resolved `creators`, with `creators.get(f, "")` defaulting to `""`). -/
structure DoaInputs where
  dl : String → String → ℕ
  totalByFile : String → ℕ
  contributors : String → List String
  creators : String → String

/-- Package a collection state with the creators map. -/
def mkInputs (st : CState) (creators : String → String) : DoaInputs :=
  { dl := st.dl, totalByFile := st.total, contributors := st.contrib,
    creators := creators }

/-- `_doa` (busfactor.py lines 166-174): the fixed linear degree-of-authorship
model, with `DL = dl[file].get(author, 0)`, `AC = max(0, total - DL)` and
`FA` from a case-insensitive match against the non-empty creator. -/
noncomputable def doa (author f : String) (inp : DoaInputs) : ℝ :=
  let DL : ℕ := inp.dl f author
  let AC : ℤ := max 0 ((inp.totalByFile f : ℤ) - (DL : ℤ))
  let FA : ℝ :=
    if pyLowerS (inp.creators f) = pyLowerS author ∧ inp.creators f ≠ "" then 1 else 0
  3.293 + 1.098 * FA + 0.164 * (DL : ℝ) - 0.321 * Real.log (1 + (AC : ℝ))

/-- `max(doa_by_author.values())` over the non-empty contributor list. -/
noncomputable def maxDoa (cs : List String) (f : String) (inp : DoaInputs) : ℝ :=
  match cs with
  | [] => 0
  | a :: rest => rest.foldl (fun m b => max m (doa b f inp)) (doa a f inp)

/-- The ownership test of `_authors_by_file` line 190:
`val > 3.293 and val > 0.75 * max_doa`. -/
noncomputable def keepAuthor (a f : String) (inp : DoaInputs) (m : ℝ) : Bool :=
  @decide (doa a f inp > 3.293 ∧ doa a f inp > 0.75 * m) (Classical.propDecidable _)

/-- `_authors_by_file` (busfactor.py lines 176-193), iterated over the file
keys of `total_by_file`. -/
noncomputable def authorsByFile (files : List String) (inp : DoaInputs) :
    List (String × List String) :=
  files.map (fun f =>
    if inp.totalByFile f = 0 then (f, [])
    else
      let cs := inp.contributors f
      if cs.isEmpty then (f, [])
      else (f, cs.filter (fun a => keepAuthor a f inp (maxDoa cs f inp))))

/-- `recompute_abandoned` (busfactor.py lines 203-210). -/
def recomputeAbandoned (files : List (String × List String))
    (abandoned removed : List String) : List String :=
  files.foldl
    (fun acc fo =>
      if fo.1 ∈ acc then acc
      else if ¬ fo.2.isEmpty ∧ fo.2.all (fun a => removed.contains a) then acc ++ [fo.1]
      else acc)
    abandoned

/-- `coverage[a] = sum(1 for f in files if a in authors_of_file[f])`. -/
def coverageOf (files : List (String × List String)) (a : String) : ℕ :=
  (files.filter (fun fo => fo.2.contains a)).length

/-- `max(coverage.items(), key=...)[0]`: first author with maximal coverage in
iteration order. -/
def topAuthor (files : List (String × List String)) (active : List String) : String :=
  match active with
  | [] => ""
  | a :: rest =>
    rest.foldl (fun best b => if coverageOf files best < coverageOf files b then b else best) a

/-- The removal loop of `_compute_bus_factor` (lines 213-223).  Each pass
removes one active author, so fuel `active.length + 1` reproduces the Python
`while True` exactly.  The stop test `len(abandoned) > 0.5 * len(files)` is
the integer test `files.length < 2 * abandoned.length`. -/
def busLoop (files : List (String × List String)) :
    ℕ → List String → List String → List String → ℕ × List String
  | 0, _, removed, _ => (removed.length, removed)
  | fuel + 1, abandoned, removed, active =>
    if files.length < 2 * abandoned.length then (removed.length, removed)
    else if active.isEmpty then (removed.length, removed)
    else
      let top := topAuthor files active
      let removed2 := removed ++ [top]
      busLoop files fuel (recomputeAbandoned files abandoned removed2) removed2
        (active.erase top)

/-- Insertion-ordered set union used for `set().union(*authors_of_file.values())`. -/
def listUnion (acc xs : List String) : List String :=
  xs.foldl (fun acc2 a => if a ∈ acc2 then acc2 else acc2 ++ [a]) acc

/-- All owning authors across files. -/
def activeAuthorsOf (aof : List (String × List String)) : List String :=
  aof.foldl (fun acc fo => listUnion acc fo.2) []

/-- `_compute_bus_factor` (busfactor.py lines 195-223). -/
def computeBusFactor (aof : List (String × List String)) : ℕ × List String :=
  if aof.isEmpty then (0, [])
  else
    let abandoned0 := (aof.filter (fun fo => fo.2.isEmpty)).map Prod.fst
    let active0 := activeAuthorsOf aof
    busLoop aof (active0.length + 1) abandoned0 [] active0

/-- `_normalize_score` (busfactor.py lines 225-228):
`min(1.0, bus_factor / max(1, len(active_authors)))`. -/
def normalizeScore (bf : ℕ) (aof : List (String × List String)) : ℚ :=
  min 1 ((bf : ℚ) / ((max 1 (activeAuthorsOf aof).length : ℕ) : ℚ))

/-- The scoring core of `get_bus_factor` (busfactor.py lines 252-254) given
collected DOA inputs. -/
noncomputable def busFactorScore (files : List String) (inp : DoaInputs) : ℚ :=
  normalizeScore (computeBusFactor (authorsByFile files inp)).1 (authorsByFile files inp)

/-! ### Spec-side definitions and concrete instances used by the theorems -/

/-- Spec-side count: "that author's modification count on the file" — the
number of code-like modifications of `f` made by commits whose normalized
author is `a`. -/
def specModsBy (isCL : String → Bool) (commits : List Commit) (f a : String) : ℕ :=
  (commits.map (fun c => if isCL f ∧ c.author = a then c.files.count f else 0)).sum

/-- Spec-side count: "the total modification count on the file by all other
authors". -/
def specModsByOthers (isCL : String → Bool) (commits : List Commit) (f a : String) : ℕ :=
  (commits.map (fun c => if isCL f ∧ c.author ≠ a then c.files.count f else 0)).sum

/-- The DOA inputs of a history with exactly one author `a` and exactly one
tracked file `f` carrying `n` modifications, `a` being the creator. -/
def singleInputs (f a : String) (n : ℕ) : DoaInputs :=
  { dl := fun f2 a2 => if f2 = f ∧ a2 = a then n else 0,
    totalByFile := fun f2 => if f2 = f then n else 0,
    contributors := fun f2 => if f2 = f then [a] else [],
    creators := fun f2 => if f2 = f then a else "" }

/-- Concrete DOA inputs: creator "Alice" (5 mods) and contributor "bob"
(2 mods) on one file with 7 total modifications. -/
def twoAuthorInputs : DoaInputs :=
  { dl := fun _ a2 => if a2 = "alice" then 5 else if a2 = "bob" then 2 else 0,
    totalByFile := fun _ => 7,
    contributors := fun _ => ["alice", "bob"],
    creators := fun _ => "Alice" }

/-! ### Helper lemmas -/

lemma pickLoop_min (famfw : List (String × String)) (fams : List (String × ℕ)) :
    ∀ (best : Option (String × ℕ)) (b : String × ℕ),
      pickLoop famfw best fams = some b →
      (∀ kv ∈ fams, b.2 ≤ kv.2) ∧ (∀ b0, best = some b0 → b.2 ≤ b0.2) := by
  induction fams with
  | nil =>
    intro best b h
    simp [pickLoop] at h
    subst h
    simp
  | cons kt rest ih =>
    intro best b h
    rcases best with _ | bb
    case none =>
      simp only [pickLoop] at h
      obtain ⟨h1, h2⟩ := ih (some kt) b h
      refine ⟨?_, by simp⟩
      intro kv hkv
      rcases List.mem_cons.mp hkv with hkv | hkv
      · subst hkv
        exact h2 _ rfl
      · exact h1 kv hkv
    case some =>
      simp only [pickLoop] at h
      split_ifs at h with hlt heq hfw
      case pos =>
        obtain ⟨h1, h2⟩ := ih (some kt) b h
        have hb : b.2 ≤ kt.2 := h2 kt rfl
        refine ⟨?_, ?_⟩
        · intro kv hkv
          rcases List.mem_cons.mp hkv with hkv | hkv
          · subst hkv
            exact hb
          · exact h1 kv hkv
        · intro b0 hb0
          injection hb0 with hb0
          subst hb0
          omega
      case pos =>
        obtain ⟨h1, h2⟩ := ih (some kt) b h
        have hb : b.2 ≤ kt.2 := h2 kt rfl
        refine ⟨?_, ?_⟩
        · intro kv hkv
          rcases List.mem_cons.mp hkv with hkv | hkv
          · subst hkv
            exact hb
          · exact h1 kv hkv
        · intro b0 hb0
          injection hb0 with hb0
          subst hb0
          omega
      case neg =>
        obtain ⟨h1, h2⟩ := ih (some bb) b h
        have hb : b.2 ≤ bb.2 := h2 bb rfl
        refine ⟨?_, ?_⟩
        · intro kv hkv
          rcases List.mem_cons.mp hkv with hkv | hkv
          · subst hkv
            omega
          · exact h1 kv hkv
        · intro b0 hb0
          injection hb0 with hb0
          subst hb0
          exact hb
      case neg =>
        obtain ⟨h1, h2⟩ := ih (some bb) b h
        have hb : b.2 ≤ bb.2 := h2 bb rfl
        refine ⟨?_, ?_⟩
        · intro kv hkv
          rcases List.mem_cons.mp hkv with hkv | hkv
          · subst hkv
            omega
          · exact h1 kv hkv
        · intro b0 hb0
          injection hb0 with hb0
          subst hb0
          exact hb

lemma scoreUtilization_anti {u1 u2 : ℚ} (h : u1 ≤ u2) :
    scoreUtilization u2 ≤ scoreUtilization u1 := by
  unfold scoreUtilization K_UNDER
  split_ifs
  all_goals try rfl
  all_goals try linarith
  all_goals try
    exact max_le (by norm_num) (by linarith)
  all_goals
    exact max_le_max le_rfl (by linarith)

lemma halfEvenRound_lb (x : ℚ) : ⌊x⌋ ≤ halfEvenRound x := by
  unfold halfEvenRound
  split_ifs <;> omega

lemma halfEvenRound_ub (x : ℚ) : halfEvenRound x ≤ ⌊x⌋ + 1 := by
  unfold halfEvenRound
  split_ifs <;> omega

lemma halfEvenRound_mono {x y : ℚ} (h : x ≤ y) : halfEvenRound x ≤ halfEvenRound y := by
  rcases lt_or_eq_of_le (Int.floor_mono h : ⌊x⌋ ≤ ⌊y⌋) with hf | hf
  · calc halfEvenRound x ≤ ⌊x⌋ + 1 := halfEvenRound_ub x
    _ ≤ ⌊y⌋ := by omega
    _ ≤ halfEvenRound y := halfEvenRound_lb y
  · unfold halfEvenRound
    rw [← hf]
    have hxy : x - ⌊x⌋ ≤ y - ⌊x⌋ := by linarith
    split_ifs <;> first | omega | (exfalso; linarith)

lemma pyRound2_mono {x y : ℚ} (h : x ≤ y) : pyRound2 x ≤ pyRound2 y := by
  unfold pyRound2
  have h2 := halfEvenRound_mono (by linarith : 100 * x ≤ 100 * y)
  have hcast : ((halfEvenRound (100 * x) : ℚ)) ≤ ((halfEvenRound (100 * y) : ℚ)) := by
    exact_mod_cast h2
  linarith

lemma effectiveBytes_pos (hw : String) : 0 < effectiveBytes hw := by
  unfold effectiveBytes
  positivity

lemma scoreOnHardware_zero (hw : String) : scoreOnHardware 0 hw = 1 := by
  unfold scoreOnHardware
  norm_num [scoreUtilization, pyRound2, halfEvenRound]

lemma scoreOnHardware_anti {b1 b2 : ℕ} (hw : String) (h : b1 ≤ b2) :
    scoreOnHardware b2 hw ≤ scoreOnHardware b1 hw := by
  unfold scoreOnHardware
  have hpos : (0 : ℚ) ≤ (effectiveBytes hw : ℚ) := by
    exact_mod_cast (effectiveBytes_pos hw).le
  have hu : (b1 : ℚ) / (effectiveBytes hw : ℚ) ≤ (b2 : ℚ) / (effectiveBytes hw : ℚ) :=
    div_le_div_of_nonneg_right (by exact_mod_cast h) hpos
  exact max_le_max le_rfl (min_le_min le_rfl (pyRound2_mono (scoreUtilization_anti hu)))

lemma addFile_total (isCL : String → Bool) (a : String) (st : CState) (f g : String) :
    (addFile isCL a st f).total g = st.total g + (if isCL g ∧ g = f then 1 else 0) := by
  by_cases hg : g = f
  · subst hg
    by_cases hf : isCL g
    · simp [addFile, hf]
    · simp [addFile, hf]
  · by_cases hf : isCL f
    · simp [addFile, hf, hg]
    · simp [addFile, hf, hg]

lemma addFile_dl (isCL : String → Bool) (a : String) (st : CState) (f g b : String) :
    (addFile isCL a st f).dl g b
      = st.dl g b + (if isCL g ∧ g = f ∧ b = a then 1 else 0) := by
  by_cases hg : g = f
  · subst hg
    by_cases hf : isCL g
    · by_cases hb : b = a
      · subst hb
        simp [addFile, hf]
      · simp [addFile, hf, hb]
    · simp [addFile, hf]
  · by_cases hf : isCL f
    · simp [addFile, hf, hg]
    · simp [addFile, hf, hg]

lemma foldl_addFile_total (isCL : String → Bool) (a : String) (fs : List String) :
    ∀ (st : CState) (g : String),
      ((fs.foldl (addFile isCL a) st).total g)
        = st.total g + (if isCL g then fs.count g else 0) := by
  induction fs with
  | nil =>
    intro st g
    simp
  | cons f fs ih =>
    intro st g
    rw [List.foldl_cons, ih, addFile_total]
    have hc : (f :: fs).count g = fs.count g + (if g = f then 1 else 0) := by
      rcases eq_or_ne g f with hg | hg
      · subst hg
        simp [List.count_cons]
      · simp [List.count_cons, hg, Ne.symm hg]
    rcases eq_or_ne g f with hg | hg
    · subst hg
      by_cases hcl : isCL g <;> simp [hcl, hc] <;> omega
    · by_cases hcl : isCL g <;> simp [hcl, hg, hc] <;> omega

lemma foldl_addFile_dl (isCL : String → Bool) (a : String) (fs : List String) :
    ∀ (st : CState) (g b : String),
      ((fs.foldl (addFile isCL a) st).dl g b)
        = st.dl g b + (if isCL g ∧ b = a then fs.count g else 0) := by
  induction fs with
  | nil =>
    intro st g b
    simp
  | cons f fs ih =>
    intro st g b
    rw [List.foldl_cons, ih, addFile_dl]
    have hc : (f :: fs).count g = fs.count g + (if g = f then 1 else 0) := by
      rcases eq_or_ne g f with hg | hg
      · subst hg
        simp [List.count_cons]
      · simp [List.count_cons, hg, Ne.symm hg]
    rcases eq_or_ne g f with hg | hg
    · subst hg
      by_cases hcl : isCL g <;> by_cases hb : b = a <;> simp [hcl, hb, hc] <;> omega
    · by_cases hcl : isCL g <;> by_cases hb : b = a <;> simp [hcl, hg, hb, hc] <;> omega

lemma collect_total (isCL : String → Bool) (commits : List Commit) (f : String) :
    (collect isCL commits).total f
      = (commits.map (fun c => if isCL f then c.files.count f else 0)).sum := by
  suffices h : ∀ st : CState, ((commits.foldl (addCommit isCL) st).total f)
      = st.total f + (commits.map (fun c => if isCL f then c.files.count f else 0)).sum by
    simpa [collect, cInit] using h cInit
  induction commits with
  | nil =>
    intro st
    simp
  | cons c cs ih =>
    intro st
    rw [List.foldl_cons, ih]
    unfold addCommit
    rw [foldl_addFile_total]
    simp [add_assoc]

set_option maxRecDepth 4096 in
lemma collect_dl (isCL : String → Bool) (commits : List Commit) (f a : String) :
    (collect isCL commits).dl f a = specModsBy isCL commits f a := by
  suffices h : ∀ st : CState, ((commits.foldl (addCommit isCL) st).dl f a)
      = st.dl f a + specModsBy isCL commits f a by
    simpa [collect, cInit] using h cInit
  induction commits with
  | nil =>
    intro st
    simp [specModsBy]
  | cons c cs ih =>
    intro st
    rw [List.foldl_cons, ih]
    unfold addCommit
    rw [foldl_addFile_dl]
    have hsp : specModsBy isCL (c :: cs) f a
        = (if isCL f ∧ c.author = a then c.files.count f else 0)
          + specModsBy isCL cs f a := by
      simp [specModsBy]
    rw [hsp]
    by_cases hcl : isCL f
    · by_cases ha : c.author = a
      · simp only [hcl, ha, true_and, and_true, and_self, if_true, ite_true,
          eq_self_iff_true]
        omega
      · have ha2 : ¬ a = c.author := fun hx => ha hx.symm
        simp only [hcl, ha, ha2, true_and, and_false, false_and, if_false, ite_false]
        omega
    · simp only [hcl, Bool.false_eq_true, false_and, if_false, ite_false]
      omega

lemma collect_total_split (isCL : String → Bool) (commits : List Commit) (f a : String) :
    (collect isCL commits).total f
      = specModsBy isCL commits f a + specModsByOthers isCL commits f a := by
  rw [collect_total]
  unfold specModsBy specModsByOthers
  induction commits with
  | nil => simp
  | cons c cs ih =>
    simp only [List.map_cons, List.sum_cons]
    rw [ih]
    by_cases hcl : isCL f <;> by_cases ha : c.author = a <;> simp [hcl, ha] <;> omega

lemma doa_single (f a : String) (n : ℕ) :
    doa a f (singleInputs f a n)
      = 3.293 + 1.098 * (if a ≠ "" then 1 else 0) + 0.164 * (n : ℝ) := by
  unfold doa singleInputs
  simp only [if_pos rfl, and_self, if_pos, eq_self_iff_true, true_and, and_true]
  have hmax : max 0 ((n : ℤ) - (n : ℤ)) = 0 := by omega
  rw [hmax]
  norm_num [Real.log_one]

lemma keep_single (f a : String) (n : ℕ) (hn : 1 ≤ n) :
    keepAuthor a f (singleInputs f a n) (maxDoa [a] f (singleInputs f a n)) = true := by
  have hm : maxDoa [a] f (singleInputs f a n) = doa a f (singleInputs f a n) := by
    simp [maxDoa]
  rw [hm]
  have hn1 : (1 : ℝ) ≤ (n : ℝ) := by exact_mod_cast hn
  have hP : doa a f (singleInputs f a n) > 3.293
      ∧ doa a f (singleInputs f a n) > 0.75 * doa a f (singleInputs f a n) := by
    rw [doa_single]
    by_cases ha : a = ""
    · simp only [ha, ne_eq, not_true_eq_false, if_false, ite_false]
      constructor <;> nlinarith
    · simp only [ne_eq, ha, not_false_eq_true, if_true, ite_true]
      constructor <;> nlinarith
  unfold keepAuthor
  exact @decide_eq_true _ (Classical.propDecidable _) hP

lemma single_aof (f a : String) (n : ℕ) (hn : 1 ≤ n) :
    authorsByFile [f] (singleInputs f a n) = [(f, [a])] := by
  unfold authorsByFile
  simp only [List.map]
  have htot : (singleInputs f a n).totalByFile f = n := by simp [singleInputs]
  have hcon : (singleInputs f a n).contributors f = [a] := by simp [singleInputs]
  rw [htot, hcon, if_neg (by omega : ¬ n = 0)]
  simp only [List.isEmpty_cons, if_false, Bool.false_eq_true, List.filter,
    keep_single f a n hn]

lemma computeBusFactor_single (f a : String) :
    computeBusFactor [(f, [a])] = (1, [a]) := by
  simp [computeBusFactor, activeAuthorsOf, listUnion, busLoop, topAuthor,
    recomputeAbandoned, coverageOf, List.erase]

lemma getSizeScoreModel_shape (url : String)
    (fetchFiles : Option String → Except Unit (List (String × Option ℕ))) (lat : ℕ) :
    ∃ tb : ℕ, getSizeScoreModel url fetchFiles lat
      = .tup (.dict (hardwareKeys.map (fun hw => (hw, scoreOnHardware tb hw)))) lat := by
  unfold getSizeScoreModel
  cases hf : fetchFiles (getRepoIdModel url) with
  | ok fs => exact ⟨pickMinViableFamily fs, by simp [hf]⟩
  | error e => exact ⟨0, by simp [hf]⟩

lemma busfactor_single (f a : String) (n : ℕ) (hn : 1 ≤ n) :
    busFactorScore [f] (singleInputs f a n) = 1
      ∧ (computeBusFactor (authorsByFile [f] (singleInputs f a n))).1 = 1 := by
  unfold busFactorScore
  rw [single_aof f a n hn, computeBusFactor_single]
  constructor
  · simp [normalizeScore, activeAuthorsOf, listUnion]
  · rfl

/-! ### Claim theorems -/

/-- Claim C1 (code bug): a metric whose underlying call raises an ordinary
`Exception` is isolated — the line still yields a record — but the
clone-failure branch of `_check_code_repo_quality` calls `exit(1)`, raising
`SystemExit`, which escapes every `except Exception` handler and aborts the
whole scoring run with no record at all. -/
theorem C1_clone_failure_exit_aborts :
    (∀ (nm : String) (t netLat : ℕ),
      processLine [(nm, RType.codeR, fun _ => getCodeQuality "code" (.error ()) t)] netLat
        = .error ())
    ∧ (∀ (nm : String) (t netLat : ℕ),
      processLine [(nm, RType.codeR, fun _ => Outcome.exc t)] netLat ≠ .error ()) := by
  constructor
  · intro nm t netLat
    simp [processLine, processUrl, runMetrics, tasksFor, unpack, getCodeQuality,
      checkCodeRepoQuality, bind, Except.bind]
  · intro nm t netLat
    simp [processLine, processUrl, runMetrics, tasksFor, unpack, setMetric,
      bind, Except.bind]

/-- Claim C2: the emitted record is always fully populated.  First conjunct:
for any model URL and any behaviour of the external file-listing fetch —
including raising for an unresolvable repo id — the `size_score` field of the
emitted record contains exactly the four hardware-tier keys, because
`get_repo_id` returns `None` instead of raising and a failed fetch scores
`total_bytes = 0` with the full map.  Second conjunct: when a metric's source
value is null (e.g. `dataset_and_code` returning `(None, latency)` on a fetch
failure), the arithmetic on `None` raises `TypeError`, the outer handler
emits the all-default record, and the resource still yields one record in
which every numeric field carries 0.0 (latencies 0) and `size_score` carries
all four tier keys — no field is ever absent. -/
theorem C2_record_fully_populated :
    (∀ (nm url : String)
        (fetchFiles : Option String → Except Unit (List (String × Option ℕ)))
        (lat l2 netLat : ℕ),
      (processLine [(nm, RType.model, fun m =>
        if m = .sizeM then .ret (getSizeScoreModel url fetchFiles lat)
        else .ret (.tup (.num 1) l2))] netLat).map (fun r => r.sizeScore.map Prod.fst)
      = .ok hardwareKeys)
    ∧ (∀ (nm : String) (q : ℚ) (l1 l2 netLat : ℕ),
      processLine [(nm, RType.dataset, fun m =>
        if m = .dacM then .ret (.tup .noneV l1)
        else .ret (.tup (.num q) l2))] netLat
      = .ok defaultRecord)
    ∧ defaultRecord.sizeScore.map Prod.fst = hardwareKeys
    ∧ defaultRecord.dacScore = 0 ∧ defaultRecord.dacLat = 0 := by
  refine ⟨?_, ?_, by decide, by decide, by decide⟩
  · intro nm url fetchFiles lat l2 netLat
    obtain ⟨tb, htb⟩ := getSizeScoreModel_shape url fetchFiles lat
    rw [htb]
    simp [processLine, processUrl, runMetrics, tasksFor, unpack, setMetric, buildRecord,
      sizeScoreOf, PyVal.asNum, bind, Except.bind, Except.map,
      hardwareKeys, HARDWARE_LIMITS]
  · intro nm q l1 l2 netLat
    simp [processLine, processUrl, runMetrics, tasksFor, unpack, setMetric, buildRecord,
      sizeScoreOf, PyVal.asNum, bind, Except.bind, Except.map,
      hardwareKeys, HARDWARE_LIMITS]

/-- Claim C3 counterexample: for the single-author single-file history
(author "alice", file "main.py", 3 modifications) the BusFactor normalized
score is 1 — not 0 as the claim states. -/
theorem C3_counterexample :
    busFactorScore ["main.py"] (singleInputs "main.py" "alice" 3) = 1
      ∧ (1 : ℚ) ≠ 0 := by
  refine ⟨?_, by norm_num⟩
  exact (busfactor_single "main.py" "alice" 3 (by norm_num)).1

/-- Claim C3 (amended): for a repository history with exactly one author and
one tracked file (the author owning it, with at least one modification), the
raw bus factor is 1 — the loop removes the sole author before re-checking the
abandonment threshold — and the normalized score is 1 (division by
`max(1, 1)`, so no division by zero). -/
theorem C3_amended_single_author_score :
    ∀ (f a : String) (n : ℕ), 1 ≤ n →
      busFactorScore [f] (singleInputs f a n) = 1
        ∧ (computeBusFactor (authorsByFile [f] (singleInputs f a n))).1 = 1 :=
  fun f a n hn => busfactor_single f a n hn

/-- Witness for C3 at f = "main.py", a = "alice", n = 3. -/
theorem C3_witness :
    1 ≤ 3
      ∧ (busFactorScore ["main.py"] (singleInputs "main.py" "alice" 3) = 1
        ∧ (computeBusFactor (authorsByFile ["main.py"]
            (singleInputs "main.py" "alice" 3))).1 = 1) :=
  ⟨by norm_num, C3_amended_single_author_score "main.py" "alice" 3 (by norm_num)⟩

/-- Claim C4 counterexample: the license metric raises after 37 measured
milliseconds, yet the record carries `(license, license_latency) = (0.0, 0)` —
the substituted latency is the constant 0, not the measured 37. -/
theorem C4_counterexample :
    (processLine [("bert", RType.model, fun m =>
      match m with
      | .licenseM => .exc 37
      | .sizeM => .ret (.tup (.dict [("raspberry_pi", 1), ("jetson_nano", 1),
          ("desktop_pc", 1), ("aws_server", 1)]) 5)
      | _ => .ret (.tup (.num 1) 5))] 9).map (fun r => (r.licenseScore, r.licenseLat))
      = .ok (0, 0)
    ∧ (0 : ℕ) ≠ 37 := by
  constructor
  · simp [processLine, processUrl, runMetrics, tasksFor, unpack, setMetric, buildRecord,
      sizeScoreOf, PyVal.asNum, bind, Except.bind, Except.map]
    norm_num [pyRound2, halfEvenRound]
  · decide

/-- Claim C4 (amended): when a metric invocation raises an `Exception` at the
Dispatcher boundary, the substituted neutral default is `(0.0, 0)` — the
recorded latency is the constant 0 whatever wall-clock time the failed call
actually took. -/
theorem C4_amended_default_latency_zero :
    ∀ (nm : String) (t netLat : ℕ),
      (processLine [(nm, RType.model, fun m =>
        match m with
        | .licenseM => .exc t
        | .sizeM => .ret (.tup (.dict [("raspberry_pi", 1), ("jetson_nano", 1),
            ("desktop_pc", 1), ("aws_server", 1)]) 5)
        | _ => .ret (.tup (.num 1) 5))] netLat).map
          (fun r => (r.licenseScore, r.licenseLat))
      = .ok (0, 0) := by
  intro nm t netLat
  simp [processLine, processUrl, runMetrics, tasksFor, unpack, setMetric, buildRecord,
    sizeScoreOf, PyVal.asNum, bind, Except.bind, Except.map]
  norm_num [pyRound2, halfEvenRound]

/-- Claim C5 (code bug): for a dataset resource whose likes count is zero,
`get_dataset_quality_score` does not return a `(score, latency)` pair — line
84 returns the bare rounded downloads score, contradicting the function's own
`Tuple[Optional[float], int]` annotation. -/
theorem C5_likes_zero_returns_bare :
    (∀ (rid : String) (d lat : ℕ),
      (getDatasetQualityScore "dataset" (.ok rid) (.ok (d, 0)) lat).isPair = false)
    ∧ (∀ (rid : String) (d lk lat : ℕ), lk ≠ 0 →
      (getDatasetQualityScore "dataset" (.ok rid) (.ok (d, lk)) lat).isPair = true) := by
  constructor
  · intro rid d lat
    simp [getDatasetQualityScore, DQRet.isPair]
  · intro rid d lk lat hlk
    simp [getDatasetQualityScore, DQRet.isPair, hlk]

/-- Witness for C5 at likes = 5 (and the failing likes = 0 case). -/
theorem C5_witness :
    (5 : ℕ) ≠ 0
      ∧ (getDatasetQualityScore "dataset" (.ok "xlangai/AgentNet") (.ok (7, 5)) 3).isPair
          = true
      ∧ (getDatasetQualityScore "dataset" (.ok "xlangai/AgentNet") (.ok (7, 0)) 3).isPair
          = false :=
  ⟨by norm_num,
    C5_likes_zero_returns_bare.2 "xlangai/AgentNet" 7 5 3 (by norm_num),
    C5_likes_zero_returns_bare.1 "xlangai/AgentNet" 7 3⟩

/-- Claim C6: the net score is the fixed-weight combination
0.15·size + 0.15·license + 0.10·rampup + 0.10·busfactor + 0.15·dataset_quality
+ 0.10·code_quality + 0.15·performance_claims + 0.10·dataset_and_code, with
size the unweighted mean of the four tier scores and the dataset-only metrics
of a model resource contributing 0 without renormalization; with the five
model metrics all 1.0 the net score is exactly 0.65. -/
theorem C6_net_score_fixed_weights :
    (∀ (q1 q2 q3 q4 lic ramp bus perf : ℚ) (l1 l2 l3 l4 l5 netLat : ℕ) (nm : String),
      (processLine [(nm, RType.model, fun m =>
        match m with
        | .sizeM => .ret (.tup (.dict [("raspberry_pi", q1), ("jetson_nano", q2),
            ("desktop_pc", q3), ("aws_server", q4)]) l1)
        | .licenseM => .ret (.tup (.num lic) l2)
        | .perfM => .ret (.tup (.num perf) l3)
        | .busM => .ret (.tup (.num bus) l4)
        | .rampM => .ret (.tup (.num ramp) l5)
        | _ => .ret (.tup (.num 0) 0))] netLat).map (fun r => r.netScore)
      = .ok (pyRound2 (15/100 * ((q1 + q2 + q3 + q4)/4) + 15/100 * lic + 10/100 * ramp
          + 10/100 * bus + 15/100 * 0 + 10/100 * 0 + 15/100 * perf + 10/100 * 0)))
    ∧ (processLine [("bert", RType.model, fun m =>
        match m with
        | .sizeM => .ret (.tup (.dict [("raspberry_pi", 1), ("jetson_nano", 1),
            ("desktop_pc", 1), ("aws_server", 1)]) 3)
        | .licenseM => .ret (.tup (.num 1) 4)
        | .perfM => .ret (.tup (.num 1) 5)
        | .busM => .ret (.tup (.num 1) 6)
        | .rampM => .ret (.tup (.num 1) 7)
        | _ => .ret (.tup (.num 0) 0))] 9).map (fun r => r.netScore)
      = .ok (13/20) := by
  constructor
  · intro q1 q2 q3 q4 lic ramp bus perf l1 l2 l3 l4 l5 netLat nm
    simp [processLine, processUrl, runMetrics, tasksFor, unpack, setMetric, buildRecord,
      sizeScoreOf, PyVal.asNum, bind, Except.bind, Except.map]
    ring_nf
  · simp [processLine, processUrl, runMetrics, tasksFor, unpack, setMetric, buildRecord,
      sizeScoreOf, PyVal.asNum, bind, Except.bind, Except.map]
    norm_num [pyRound2, halfEvenRound]

/-- Claim C7: over any commit history, the DOA computed by `_doa` on the
collected tallies equals the fixed linear model
3.293 + 1.098·FA + 0.164·DL − 0.321·ln(1 + AC), where DL is the author's own
modification count on the file and AC is the total modification count on the
file by all other authors (FA is the non-empty case-insensitive creator
match). -/
theorem C7_doa_formula :
    ∀ (isCL : String → Bool) (commits : List Commit) (creators : String → String)
      (f a : String),
      doa a f (mkInputs (collect isCL commits) creators)
        = 3.293
          + 1.098 * (if pyLowerS (creators f) = pyLowerS a ∧ creators f ≠ "" then 1 else 0)
          + 0.164 * (specModsBy isCL commits f a : ℝ)
          - 0.321 * Real.log (1 + (specModsByOthers isCL commits f a : ℝ)) := by
  intro isCL commits creators f a
  unfold doa mkInputs
  simp only
  rw [collect_dl, collect_total_split isCL commits f a]
  have hac : max 0 (((specModsBy isCL commits f a + specModsByOthers isCL commits f a : ℕ) : ℤ)
      - ((specModsBy isCL commits f a : ℕ) : ℤ))
      = (specModsByOthers isCL commits f a : ℤ) := by
    push_cast
    omega
  rw [hac]
  push_cast
  ring_nf

/-- Claim C8: the family scan keeps a family of minimal total byte size (part
1, over any file listing); concretely, families of sizes s1 < s2 select s1,
and an exact tie between a safetensors family and a pytorch family is broken
in favour of safetensors, in either scan order. -/
theorem C8_min_viable_family_selection :
    (∀ (files : List (String × Option ℕ)) (b : String × ℕ),
        pickBestFamily files = some b →
        ∀ kv ∈ (buildFamilies (weightFiles files)).1, b.2 ≤ kv.2)
    ∧ (∀ s1 s2 : ℕ, s1 < s2 →
        pickMinViableFamily [("a.safetensors", some s1), ("b.bin", some s2)] = s1)
    ∧ (∀ s : ℕ, pickBestFamily [("a.safetensors", some s), ("b.bin", some s)]
        = some ("a.safetensors", s))
    ∧ (∀ s : ℕ, pickBestFamily [("b.bin", some s), ("a.safetensors", some s)]
        = some ("a.safetensors", s)) := by
  refine ⟨?_, ?_, ?_, ?_⟩
  · intro files b h kv hkv
    exact (pickLoop_min (buildFamilies (weightFiles files)).2
      (buildFamilies (weightFiles files)).1 none b h).1 kv hkv
  · intro s1 s2 h
    have h1 : ¬ s2 < s1 := by omega
    have h2 : ¬ s2 = s1 := by omega
    simp [pickMinViableFamily, weightFiles, pickBestFamily, buildFamilies, alAdd, alSet,
      pickLoop, List.filter, h1, h2,
      (by decide : looksLikeWeightFile "a.safetensors" = true),
      (by decide : looksLikeWeightFile "b.bin" = true),
      (by decide : familyKey "a.safetensors" = "a.safetensors"),
      (by decide : familyKey "b.bin" = "b.bin")]
  · intro s
    simp only [pickBestFamily, weightFiles, buildFamilies, alAdd, alSet, pickLoop,
      List.filter, List.foldl, List.map,
      (by decide : looksLikeWeightFile "a.safetensors" = true),
      (by decide : looksLikeWeightFile "b.bin" = true),
      (by decide : familyKey "a.safetensors" = "a.safetensors"),
      (by decide : familyKey "b.bin" = "b.bin")]
    simp only [Option.getD]
    rw [if_neg (lt_irrefl s)]
    rw [if_pos trivial]
    rw [if_neg (by decide)]
  · intro s
    simp only [pickBestFamily, weightFiles, buildFamilies, alAdd, alSet, pickLoop,
      List.filter, List.foldl, List.map,
      (by decide : looksLikeWeightFile "a.safetensors" = true),
      (by decide : looksLikeWeightFile "b.bin" = true),
      (by decide : familyKey "a.safetensors" = "a.safetensors"),
      (by decide : familyKey "b.bin" = "b.bin")]
    simp only [Option.getD]
    rw [if_neg (lt_irrefl s)]
    rw [if_pos trivial]
    rw [if_pos (by decide)]

/-- Witness for C8 at sizes 50 and 200. -/
theorem C8_witness :
    pickBestFamily [("a.safetensors", some 50), ("b.bin", some 200)]
        = some ("a.safetensors", 50)
      ∧ ("a.safetensors", (50 : ℕ)).2 ≤ ("b.bin", (200 : ℕ)).2
      ∧ (50 : ℕ) < 200
      ∧ pickMinViableFamily [("a.safetensors", some 50), ("b.bin", some 200)] = 50 :=
  ⟨by decide,
    C8_min_viable_family_selection.1 [("a.safetensors", some 50), ("b.bin", some 200)]
      ("a.safetensors", 50) (by decide) ("b.bin", 200) (by decide),
    by decide,
    C8_min_viable_family_selection.2.1 50 200 (by decide)⟩

/-- Claim C9: a zero-byte artifact scores exactly 1.0 on every hardware tier,
and for a fixed tier the score is non-increasing in the total byte size. -/
theorem C9_tier_score_curve :
    ∀ hw ∈ hardwareKeys,
      scoreOnHardware 0 hw = 1
        ∧ ∀ b1 b2 : ℕ, b1 ≤ b2 → scoreOnHardware b2 hw ≤ scoreOnHardware b1 hw :=
  fun hw _ => ⟨scoreOnHardware_zero hw, fun _ _ h => scoreOnHardware_anti hw h⟩

/-- Witness for C9 at tier "raspberry_pi" and sizes 3 ≤ 5. -/
theorem C9_witness :
    "raspberry_pi" ∈ hardwareKeys
      ∧ scoreOnHardware 0 "raspberry_pi" = 1
      ∧ (3 : ℕ) ≤ 5
      ∧ scoreOnHardware 5 "raspberry_pi" ≤ scoreOnHardware 3 "raspberry_pi" :=
  ⟨by decide,
    (C9_tier_score_curve "raspberry_pi" (by decide)).1,
    by decide,
    (C9_tier_score_curve "raspberry_pi" (by decide)).2 3 5 (by decide)⟩

/-- Claim C10: on one file, the creating author (non-empty case-insensitive
creator match) with the larger modification count has strictly greater DOA
than a non-creator contributor with a smaller count, the file's total
modification count being fixed. -/
theorem C10_doa_monotone :
    ∀ (inp : DoaInputs) (f a1 a2 : String) (d1 d2 T : ℕ),
      inp.dl f a1 = d1 → inp.dl f a2 = d2 → inp.totalByFile f = T →
      d2 < d1 → d1 ≤ T →
      pyLowerS (inp.creators f) = pyLowerS a1 → inp.creators f ≠ "" →
      ¬ pyLowerS (inp.creators f) = pyLowerS a2 →
      doa a2 f inp < doa a1 f inp := by
  intro inp f a1 a2 d1 d2 T h1 h2 hT hd hdT hc1 hc0 hc2
  unfold doa
  simp only
  rw [h1, h2, hT, if_neg (fun hx => hc2 hx.1), if_pos ⟨hc1, hc0⟩]
  have hle : max 0 ((T : ℤ) - (d1 : ℤ)) ≤ max 0 ((T : ℤ) - (d2 : ℤ)) := by omega
  have hpos : (0 : ℝ) < 1 + ((max 0 ((T : ℤ) - (d1 : ℤ)) : ℤ) : ℝ) := by
    have h0 : (0 : ℤ) ≤ max 0 ((T : ℤ) - (d1 : ℤ)) := le_max_left _ _
    have hcast : (0 : ℝ) ≤ ((max 0 ((T : ℤ) - (d1 : ℤ)) : ℤ) : ℝ) := by exact_mod_cast h0
    linarith
  have hlog : Real.log (1 + ((max 0 ((T : ℤ) - (d1 : ℤ)) : ℤ) : ℝ))
      ≤ Real.log (1 + ((max 0 ((T : ℤ) - (d2 : ℤ)) : ℤ) : ℝ)) := by
    apply Real.log_le_log hpos
    have hcast : ((max 0 ((T : ℤ) - (d1 : ℤ)) : ℤ) : ℝ)
        ≤ ((max 0 ((T : ℤ) - (d2 : ℤ)) : ℤ) : ℝ) := by
      exact_mod_cast hle
    linarith
  have hdr : (d2 : ℝ) < (d1 : ℝ) := by exact_mod_cast hd
  linarith

/-- Witness for C10 on `twoAuthorInputs`: creator "alice" (5 mods) vs
contributor "bob" (2 mods) on a file with 7 total modifications. -/
theorem C10_witness :
    twoAuthorInputs.dl "train.py" "alice" = 5
      ∧ twoAuthorInputs.dl "train.py" "bob" = 2
      ∧ twoAuthorInputs.totalByFile "train.py" = 7
      ∧ (2 : ℕ) < 5
      ∧ (5 : ℕ) ≤ 7
      ∧ pyLowerS (twoAuthorInputs.creators "train.py") = pyLowerS "alice"
      ∧ twoAuthorInputs.creators "train.py" ≠ ""
      ∧ ¬ pyLowerS (twoAuthorInputs.creators "train.py") = pyLowerS "bob"
      ∧ doa "bob" "train.py" twoAuthorInputs < doa "alice" "train.py" twoAuthorInputs :=
  ⟨by decide, by decide, by decide, by decide, by decide, by decide, by decide, by decide,
    C10_doa_monotone twoAuthorInputs "train.py" "alice" "bob" 5 2 7 (by decide) (by decide)
      (by decide) (by decide) (by decide) (by decide) (by decide) (by decide)⟩

end Scorer
